import Mathlib

/-!
Verification of the Biome export scripts (`export_landcover.py`,
`export_geodatabase.py`) against their natural-language specification.

The two Python scripts are shallowly embedded below: pure fragments become
Lean functions; the file-system side effects of a run become explicit lists
of written files; possible I/O failures (a raising `open`/`write`) are
modelled by a write environment that says, per resolution, whether the
write succeeds.  Machine integers of the scripts are modelled by `Int`/`Nat`
(the scripts do no overflowing arithmetic).
-/

namespace Biome

/-! ## Land-cover pipeline: data model (`export_landcover.py`) -/

/-- One entry of the static Copernicus land-cover class table
(`LANDCOVER_CLASSES` [export_landcover.py:45-69]): a land-cover code with
its name, hex color and biome category. -/
structure LCClass where
  code : Nat
  name : String
  color : String
  biome : String
deriving DecidableEq, Repr

/-- Table `LANDCOVER_CLASSES` [export_landcover.py:45-69], in declaration
(= Python dict insertion) order. -/
def LANDCOVER_CLASSES : List LCClass :=
  [ ⟨0, "unknown", "#808080", "unknown"⟩,
    ⟨20, "shrubs", "#ccb35c", "shrubland"⟩,
    ⟨30, "herbaceous", "#b8e05c", "grassland"⟩,
    ⟨40, "cultivated", "#e9d35f", "agricultural"⟩,
    ⟨50, "urban", "#e60000", "urban"⟩,
    ⟨60, "bare_sparse", "#c4b79f", "desert"⟩,
    ⟨70, "snow_ice", "#f0f0f0", "polar"⟩,
    ⟨80, "water", "#0064c8", "freshwater"⟩,
    ⟨90, "wetland", "#009696", "wetland"⟩,
    ⟨100, "moss_lichen", "#7dd67d", "tundra"⟩,
    ⟨111, "forest_evergreen_needle", "#006400", "forest"⟩,
    ⟨112, "forest_evergreen_broad", "#00a000", "forest"⟩,
    ⟨113, "forest_deciduous_needle", "#aac800", "forest"⟩,
    ⟨114, "forest_deciduous_broad", "#68c800", "forest"⟩,
    ⟨115, "forest_mixed", "#00c800", "forest"⟩,
    ⟨116, "forest_unknown", "#32c832", "forest"⟩,
    ⟨121, "forest_open_evergreen_needle", "#88a000", "woodland"⟩,
    ⟨122, "forest_open_evergreen_broad", "#78c800", "woodland"⟩,
    ⟨123, "forest_open_deciduous_needle", "#a0c000", "woodland"⟩,
    ⟨124, "forest_open_deciduous_broad", "#90c800", "woodland"⟩,
    ⟨125, "forest_open_mixed", "#78c864", "woodland"⟩,
    ⟨126, "forest_open_unknown", "#6bc864", "woodland"⟩,
    ⟨200, "ocean", "#000080", "ocean"⟩ ]

/-- Entry `LANDCOVER_CLASSES[0]`, the "unknown" class used as the `.get` default
in `get_biome_info` [export_landcover.py:75]. -/
def unknownClass : LCClass := ⟨0, "unknown", "#808080", "unknown"⟩

/-- The `LANDCOVER_CLASSES.get(code, ...)` key lookup: the dict has one entry
per code, modelled by `find?` over the entry list. -/
def classFor (c : Int) : Option LCClass :=
  LANDCOVER_CLASSES.find? (fun k => (k.code : Int) == c)

/-- Python truthiness of the `majority` cell (`None` and `0` are falsy),
as used in `int(majority_code) if majority_code else 0`
[export_landcover.py:74,92]. -/
def pyTruthyInt : Option Int → Bool
  | none => false
  | some v => !(v == 0)

/-- Python truthiness of the `h3_index` cell (`None` and `""` are falsy),
as used by `if h3_index:` [export_landcover.py:88]. -/
def pyTruthyStr : Option String → Bool
  | none => false
  | some s => !(s == "")

/-- Expression `int(majority_code) if majority_code else 0`
[export_landcover.py:74,92]. -/
def majority_to_code (m : Option Int) : Int :=
  if pyTruthyInt m then m.getD 0 else 0

/-- Function `get_biome_info` [export_landcover.py:72-75]: class-table lookup of the
majority code, defaulting to `LANDCOVER_CLASSES[0]`. -/
def get_biome_info (m : Option Int) : LCClass :=
  (classFor (majority_to_code m)).getD unknownClass

/-- One output record of the land-cover pipeline
[export_landcover.py:90-94]. -/
structure LCRecord where
  h3 : String
  code : Int
  biome : String
deriving DecidableEq, Repr

/-- The record built from one source row by `export_table_arcpy`
[export_landcover.py:89-94] (the `export_table_geopandas` body at lines
115-121 is identical). -/
def lc_map_row (h3v : String) (m : Option Int) : LCRecord :=
  { h3 := h3v, code := majority_to_code m, biome := (get_biome_info m).biome }

/-- One source table of the land-cover pipeline: its name and its rows,
each row the `(h3_index, MAJORITY)` pair read by the cursor
[export_landcover.py:83-87]. -/
structure LCTable where
  name : String
  rows : List (Option String × Option Int)
deriving DecidableEq, Repr

/-- Function `export_table_arcpy` [export_landcover.py:78-96]: rows whose `h3_index`
is truthy become records; falsy `h3_index` rows are dropped. -/
def export_table_arcpy (t : LCTable) : List LCRecord :=
  t.rows.filterMap (fun row =>
    if pyTruthyStr row.1 then some (lc_map_row (row.1.getD "") row.2) else none)

/-- The `all_records` accumulation of `export_resolution`
[export_landcover.py:150-160]: tables are processed in the listing order
returned by `find_tables`, each table's records appended in turn. -/
def landcover_aggregate (tables : List LCTable) : List LCRecord :=
  (tables.map export_table_arcpy).flatten

/-- The `biome_colors` / `biome_to_color` dict comprehension
[export_landcover.py:175-178 and 219-222]: iterate the class table in
declaration order; a later entry with an already-seen biome overwrites the
stored color.  Modelled as an association list with in-place replacement
(Python dict keeps the first key position and the last value). -/
def insertBiomeColor (acc : List (String × String)) (b c : String) :
    List (String × String) :=
  if acc.any (fun p => p.1 == b) then
    acc.map (fun p => if p.1 == b then (p.1, c) else p)
  else acc ++ [(b, c)]

/-- The biome → color mapping written into every per-resolution summary and
into `biome_colors.json` [export_landcover.py:175-178, 219-222]. -/
def biome_to_color : List (String × String) :=
  LANDCOVER_CLASSES.foldl (fun acc k => insertBiomeColor acc k.biome k.color) []

/-- The biome strings occurring in the class table. -/
def classBiomes : List String := LANDCOVER_CLASSES.map LCClass.biome

/-! ## Land-cover pipeline: run model

`export_resolution` [export_landcover.py:139-185] opens and writes two
files (the `.jsonl` and the summary).  A raising `open`/`write` (disk full,
permission) propagates: nothing later in the function, nor in `main`, runs.
The write environment below says, per resolution, whether each of the two
file writes succeeds; `false` models a raising write. -/

/-- Per-resolution write success of the two files `export_resolution`
opens [export_landcover.py:165,182]. -/
structure WEnv where
  jsonlOk : Nat → Bool
  summaryOk : Nat → Bool

/-- A file written by a land-cover run: the `landcover_res<N>.jsonl`
records file [export_landcover.py:163-167], the
`landcover_res<N>_summary.json` summary [export_landcover.py:171-183], or
the global `biome_colors.json` [export_landcover.py:214-223]. -/
inductive LCFile where
  | jsonl (res : Nat) (records : List LCRecord)
  | summary (res : Nat) (totalTiles : Nat) (biomeColors : List (String × String))
  | colors (classes : List LCClass) (biomeToColor : List (String × String))
deriving DecidableEq, Repr

/-- Function `export_resolution` [export_landcover.py:139-185], given the tables
`find_tables` returned for the pattern.  Result: the files the call wrote,
and whether it returned normally (`false` = it raised).  With zero tables
it returns at line 148 before opening any file.  Otherwise it writes the
jsonl file, then the summary with `total_tiles = len(all_records)` and the
biome → color mapping; a raising write leaves the earlier files on disk
and propagates. -/
def export_resolution (env : WEnv) (res : Nat) (tables : List LCTable) :
    List LCFile × Bool :=
  if tables.isEmpty then ([], true)
  else
    let all_records := landcover_aggregate tables
    if env.jsonlOk res then
      if env.summaryOk res then
        ([LCFile.jsonl res all_records,
          LCFile.summary res all_records.length biome_to_color], true)
      else ([LCFile.jsonl res all_records], false)
    else ([], false)

/-- The sequence of `export_resolution` calls in `main`
[export_landcover.py:204-212]: strictly sequential, no `try`/`except`;
an exception in one call prevents every later call from running. -/
def run_resolutions (env : WEnv) : List (Nat × List LCTable) → List LCFile × Bool
  | [] => ([], true)
  | g :: rest =>
    let step := export_resolution env g.1 g.2
    if step.2 then
      let cont := run_resolutions env rest
      (step.1 ++ cont.1, cont.2)
    else (step.1, false)

/-- Function `main` [export_landcover.py:188-229]: run the three resolution groups,
then write `biome_colors.json`.  Result: files written and the process
exit status (0 on normal completion, 1 when an uncaught exception
terminates the interpreter). -/
def landcover_main (env : WEnv) (groups : List (Nat × List LCTable)) :
    List LCFile × Nat :=
  let run := run_resolutions env groups
  if run.2 then (run.1 ++ [LCFile.colors LANDCOVER_CLASSES biome_to_color], 0)
  else (run.1, 1)

/-- Backend selection at import time [export_landcover.py:27-40]: prefer
arcpy, else geopandas/fiona, else print the actionable message and
`sys.exit(1)`.  `Except.ok b` is `USE_ARCPY = b`; `Except.error n` is
process exit with status `n`. -/
def landcover_backend_select (arcpyAvail geopandasAvail : Bool) :
    Except Nat Bool :=
  if arcpyAvail then Except.ok true
  else if geopandasAvail then Except.ok false
  else Except.error 1

/-! ## Statistics pipeline (`export_geodatabase.py`) -/

/-- A cell value read from a geodatabase row (null, text, or numeric). -/
inductive Value where
  | null
  | str (s : String)
  | int (n : Int)
deriving DecidableEq, Repr

/-- One output record of the statistics pipeline
[export_geodatabase.py:98-105]. -/
structure StatRecord where
  h3_index : Value
  zone_code : Value
  count : Value
  area : Value
  majority : Value
  source_part : String
deriving DecidableEq, Repr

/-- Expression `row[fields.index(name)] if name in fields else None`
[export_geodatabase.py:99-103]; `row` is aligned with `fields` by the
cursor contract. -/
def getField (fields : List String) (row : List Value) (name : String) :
    Value :=
  if name ∈ fields then row.getD (fields.indexOf name) Value.null
  else Value.null

/-- The record built from one cursor row inside `export_with_arcpy`
[export_geodatabase.py:97-105]; `part` is the part index parsed from the
table name, giving the `source_part` tag `f"part\x7bpart\x7d"`. -/
def stats_map_row (fields : List String) (part : Nat) (row : List Value) :
    StatRecord :=
  { h3_index := getField fields row "h3_index"
    zone_code := getField fields row "ZONE_CODE"
    count := getField fields row "COUNT"
    area := getField fields row "AREA"
    majority := getField fields row "MAJORITY"
    source_part := "part" ++ toString part }

/-- One statistics source table: name, part index parsed by
`TABLE_PATTERN` [export_geodatabase.py:25,64-68], its field list and its
rows. -/
structure StatTable where
  name : String
  part : Nat
  fields : List String
  rows : List (List Value)
deriving DecidableEq, Repr

/-- All records read from one table [export_geodatabase.py:95-107]: every
cursor row is appended, with no filtering. -/
def stats_export_table (t : StatTable) : List StatRecord :=
  t.rows.map (stats_map_row t.fields t.part)

/-- Expression `sorted(tables_list, key=lambda x: x[1])` [export_geodatabase.py:84]:
the tables of one resolution group, stably sorted by ascending part
index. -/
def stats_sort_tables (ts : List StatTable) : List StatTable :=
  ts.mergeSort (fun a b => a.part ≤ b.part)

/-- The `all_records` accumulation of one resolution group in
`export_with_arcpy` [export_geodatabase.py:83-106]: tables in ascending
part order, each table's records appended in turn. -/
def stats_aggregate (ts : List StatTable) : List StatRecord :=
  ((stats_sort_tables ts).map stats_export_table).flatten

/-- The fixed `fieldnames` of the CSV `DictWriter`
[export_geodatabase.py:113]. -/
def declared_columns : List String :=
  ["h3_index", "zone_code", "count", "area", "majority", "source_part"]

/-- The header row the arcpy backend writes: `DictWriter` with the fixed
`fieldnames`, independent of the source columns
[export_geodatabase.py:112-114]. -/
def arcpy_csv_header : List String := declared_columns

/-- The column rename of the fiona backend [export_geodatabase.py:177-182]. -/
def fiona_rename (c : String) : String :=
  if c == "ZONE_CODE" then "zone_code"
  else if c == "COUNT" then "count"
  else if c == "AREA" then "area"
  else if c == "MAJORITY" then "majority"
  else c

/-- The header row the fiona backend writes
[export_geodatabase.py:184-190]: the combined frame holds the renamed
source columns plus the added `source_part`; the selection
`[c for c in columns if c in combined.columns]` keeps only the declared
columns actually present, and `to_csv` writes exactly those. -/
def fiona_csv_header (sourceCols : List String) : List String :=
  let present := sourceCols.map fiona_rename ++ ["source_part"]
  declared_columns.filter (fun c => present.contains c)

/-- The outcome of the statistics exporter `main`
[export_geodatabase.py:231-258]: whether an export backend succeeded,
whether the failure-guidance message was printed, and the process exit
status.  `main` never calls `sys.exit`, so the interpreter always exits
with status 0; `arcpyOk`/`fionaOk` are the boolean results of
`export_with_arcpy()` / `export_with_fiona()` (both return `False` when
their library fails to import [export_geodatabase.py:48-52,130-135]). -/
structure StatsRun where
  exportSucceeded : Bool
  printedGuidance : Bool
  exitCode : Nat
deriving DecidableEq, Repr

/-- Function `main` [export_geodatabase.py:231-258] as a function of the two
backend outcomes. -/
def stats_main (arcpyOk fionaOk : Bool) : StatsRun :=
  let success := if arcpyOk then true else fionaOk
  { exportSucceeded := success, printedGuidance := !success, exitCode := 0 }

/-- One `res<N>` subdirectory of the output directory as
`generate_manifest` sees it [export_geodatabase.py:208-212]: the parsed
resolution and, when `zonal_stats_res<N>.csv` exists, that file's current
lines. -/
structure ResDir where
  res : Nat
  csvLines : Option (List String)
deriving DecidableEq, Repr

/-- Function `generate_manifest` [export_geodatabase.py:200-228]: scan the `res*`
subdirectories; for each whose CSV file exists, record
`record_count = (number of lines of the file now) - 1`.  The manifest is a
function of the directory contents alone — the records exported by the
current run are not an input. -/
def generate_manifest (dirs : List ResDir) : List (Nat × Nat) :=
  dirs.filterMap (fun d => d.csvLines.map (fun ls => (d.res, ls.length - 1)))

/-! ## Land-cover pipeline: JSON-lines writer and line-by-line reader

The writer is `f.write(json.dumps(record) + '\n')` per record
[export_landcover.py:165-167].  `json.dumps` on the three-field dict
produces `\x7b"h3": <string>, "code": <int>, "biome": <string>\x7d` in
insertion order with the default separators, escaping `"`, `\`, the named
control characters and other characters below U+0020 (as `\u00xx`) inside
strings, so the encoded record contains no raw newline.  (The
`ensure_ascii` escaping of characters at U+0080 and above is not modelled:
it replaces one self-inverse spelling of those characters by another and
does not affect which records a round trip yields.)  The reader is the one
the spec prescribes for the round-trip property: read the file line by
line and parse each line as one JSON object. -/

/-- Lowercase hex digit, as in Python's `\u00xx` escapes. -/
def hexDigitChar (d : Nat) : Char :=
  if d < 10 then Char.ofNat (48 + d) else Char.ofNat (87 + d)

/-- Value of one hex digit character (either case), `none` otherwise. -/
def hexVal (c : Char) : Option Nat :=
  if 48 ≤ c.toNat ∧ c.toNat ≤ 57 then some (c.toNat - 48)
  else if 97 ≤ c.toNat ∧ c.toNat ≤ 102 then some (c.toNat - 87)
  else if 65 ≤ c.toNat ∧ c.toNat ≤ 70 then some (c.toNat - 55)
  else none

/-- JSON string escaping of one character, as `json.dumps` performs it
inside string values. -/
def escape_char (c : Char) : List Char :=
  if c = '"' then ['\\', '"']
  else if c = '\\' then ['\\', '\\']
  else if c = '\n' then ['\\', 'n']
  else if c = '\r' then ['\\', 'r']
  else if c = '\t' then ['\\', 't']
  else if c = '\x08' then ['\\', 'b']
  else if c = '\x0c' then ['\\', 'f']
  else if c.toNat < 32 then
    ['\\', 'u', '0', '0', hexDigitChar (c.toNat / 16), hexDigitChar (c.toNat % 16)]
  else [c]

/-- JSON string escaping of a whole string value. -/
def escape_chars (s : List Char) : List Char :=
  (s.map escape_char).flatten

/-- Decimal digits of a natural number (auxiliary accumulator form). -/
def natToDecimalAux : Nat → List Char → List Char
  | n, acc =>
    if h : n = 0 then acc
    else natToDecimalAux (n / 10) (Char.ofNat (48 + n % 10) :: acc)
termination_by n _ => n
decreasing_by exact Nat.div_lt_self (Nat.pos_of_ne_zero h) (by omega)

/-- Decimal notation of a natural number, as Python prints it. -/
def natToDecimal (n : Nat) : List Char :=
  if n = 0 then ['0'] else natToDecimalAux n []

/-- Decimal notation of an integer, as `json.dumps` prints the `code`
field. -/
def intToDecimal (i : Int) : List Char :=
  if i < 0 then '-' :: natToDecimal i.natAbs else natToDecimal i.toNat

/-- `json.dumps` of one land-cover record [export_landcover.py:166]:
the three fields in dict insertion order, default separators. -/
def json_dumps_record (r : LCRecord) : List Char :=
  "\x7b\"h3\": \"".data ++ escape_chars r.h3.data ++ "\", \"code\": ".data ++
    intToDecimal r.code ++ ", \"biome\": \"".data ++ escape_chars r.biome.data ++
    "\"\x7d".data

/-- The whole `.jsonl` file content the writer loop
[export_landcover.py:165-167] produces: one encoded record plus `'\n'` per
record. -/
def write_jsonl (records : List LCRecord) : List Char :=
  (records.map (fun r => json_dumps_record r ++ ['\n'])).flatten

/-- Consume an expected literal character sequence, returning the rest. -/
def chewLit : List Char → List Char → Option (List Char)
  | [], cs => some cs
  | _ :: _, [] => none
  | l :: ls, c :: cs => if c = l then chewLit ls cs else none

/-- Meaning of a single-character JSON escape (`\u` handled separately). -/
def unescape_char (e : Char) : Option Char :=
  if e = '"' then some '"'
  else if e = '\\' then some '\\'
  else if e = '/' then some '/'
  else if e = 'n' then some '\n'
  else if e = 'r' then some '\r'
  else if e = 't' then some '\t'
  else if e = 'b' then some '\x08'
  else if e = 'f' then some '\x0c'
  else none

/-- Parse a JSON string body up to its closing quote (the opening quote
already consumed); `acc` holds the characters read so far, reversed. -/
def parseJStr : List Char → List Char → Option (List Char × List Char)
  | [], _ => none
  | c :: rest, acc =>
    if c = '"' then some (acc.reverse, rest)
    else if c = '\\' then
      match rest with
      | [] => none
      | e :: rest2 =>
        if e = 'u' then
          match rest2 with
          | h1 :: h2 :: h3 :: h4 :: rest3 =>
            match hexVal h1, hexVal h2, hexVal h3, hexVal h4 with
            | some a, some b, some c2, some d =>
              parseJStr rest3 (Char.ofNat (((a * 16 + b) * 16 + c2) * 16 + d) :: acc)
            | _, _, _, _ => none
          | _ => none
        else
          match unescape_char e with
          | some u => parseJStr rest2 (u :: acc)
          | none => none
    else parseJStr rest (c :: acc)

/-- Parse a run of decimal digits into the accumulator, stopping at the
first non-digit. -/
def parseDigits : List Char → Nat → Nat × List Char
  | [], acc => (acc, [])
  | c :: cs, acc =>
    if c.isDigit then parseDigits cs (acc * 10 + (c.toNat - 48))
    else (acc, c :: cs)

/-- Parse a JSON integer (optional minus sign, then digits). -/
def parseIntDec : List Char → Option (Int × List Char)
  | [] => none
  | c :: cs =>
    if c = '-' then
      match cs with
      | [] => none
      | d :: _ =>
        if d.isDigit then
          let p := parseDigits cs 0
          some (-(p.1 : Int), p.2)
        else none
    else if c.isDigit then
      let p := parseDigits (c :: cs) 0
      some ((p.1 : Int), p.2)
    else none

/-- `json.loads` of one line of the file, for lines of the shape the
writer produces: the three-field object, fields in the written order. -/
def json_loads_record (cs : List Char) : Option LCRecord := do
  let cs1 ← chewLit "\x7b\"h3\": \"".data cs
  let (h3cs, cs2) ← parseJStr cs1 []
  let cs3 ← chewLit ", \"code\": ".data cs2
  let (code, cs4) ← parseIntDec cs3
  let cs5 ← chewLit ", \"biome\": \"".data cs4
  let (bcs, cs6) ← parseJStr cs5 []
  let cs7 ← chewLit "\x7d".data cs6
  match cs7 with
  | [] => some { h3 := String.mk h3cs, code := code, biome := String.mk bcs }
  | _ => none

/-- Split file content at newline characters (auxiliary accumulator
form). -/
def splitLinesAux : List Char → List Char → List (List Char)
  | [], acc => [acc.reverse]
  | c :: cs, acc =>
    if c = '\n' then acc.reverse :: splitLinesAux cs []
    else splitLinesAux cs (c :: acc)

/-- Split file content at newline characters; a trailing newline yields a
final empty chunk. -/
def splitLines (cs : List Char) : List (List Char) := splitLinesAux cs []

/-- Read the `.jsonl` file back line by line, parsing each line as one
record (the final empty chunk after the trailing newline is not a line). -/
def read_jsonl (cs : List Char) : Option (List LCRecord) :=
  ((splitLines cs).dropLast).mapM json_loads_record

/-! ## Concrete fixtures used by counterexamples and witnesses -/

/-- Write environment in which every file write succeeds. -/
def envAllOk : WEnv := ⟨fun _ => true, fun _ => true⟩

/-- Write environment in which opening the resolution-3 `.jsonl` file
raises (e.g. disk full) and every other write succeeds. -/
def envJsonlFailRes3 : WEnv := ⟨fun r => !(r == 3), fun _ => true⟩

/-- A one-row resolution-3 source table. -/
def lcTableA : LCTable := ⟨"ZStatsAsTable_h3_res3_part01", [(some "831a", some 50)]⟩

/-- A one-row resolution-5 source table. -/
def lcTableB : LCTable := ⟨"ZStatsTable_h3_res5_part001", [(some "851b", some 80)]⟩

/-- A land-cover table named `part02`, listed before its `part01`
sibling. -/
def lcPart02 : LCTable := ⟨"ZStatsAsTable_h3_res3_part02", [(some "h3b", none)]⟩

/-- A land-cover table named `part01`, listed after its `part02`
sibling. -/
def lcPart01 : LCTable := ⟨"ZStatsAsTable_h3_res3_part01", [(some "h3a", none)]⟩

/-- A statistics source table whose schema lacks the `h3_index` column. -/
def statTableNoH3 : StatTable :=
  ⟨"ZStatsTable_h3_res5_part001", 1, ["ZONE_CODE", "COUNT"],
   [[Value.int 5, Value.int 7]]⟩

/-- Test for the summary file among written files. -/
def isSummaryFile : LCFile → Bool
  | LCFile.summary _ _ _ => true
  | _ => false

/-- Test for the `.jsonl` file of a given resolution among written
files. -/
def isJsonlFor (res : Nat) : LCFile → Bool
  | LCFile.jsonl r _ => r == res
  | _ => false

/-- Test that a cell value is a non-empty string. -/
def valueNonEmptyStr : Value → Bool
  | Value.str s => !(s == "")
  | _ => false

/-! ## Claim C1: behaviour on a pattern matching zero tables -/

/-- C1, counterexample.  The claim says that when the pattern matches zero
tables for resolution 7, the per-resolution summary file is still written
with `total_tiles = 0`.  In the code, `export_resolution` returns at
line 148 before opening any file: a run whose resolution-7 pattern matches
nothing writes no resolution-7 file at all (in particular no summary),
though it does continue non-fatally and exits 0. -/
theorem c1_counterexample :
    (export_resolution envAllOk 7 []).1 = [] ∧
    ((landcover_main envAllOk [(7, [])]).1.any isSummaryFile) = false ∧
    (landcover_main envAllOk [(7, [])]).2 = 0 := by decide

/-- C1, amended: for every resolution group whose pattern matches zero
tables, `export_resolution` writes no file for that group (no `.jsonl`
and no summary) and returns normally, and the run continues non-fatally —
the group behaves as a no-op, so the run's outputs and exit status (0 on
success) are those of the remaining groups. -/
theorem c1_empty_group_writes_nothing_nonfatal (env : WEnv) (r : Nat)
    (groups : List (Nat × List LCTable)) :
    export_resolution env r [] = ([], true) ∧
    landcover_main env ((r, []) :: groups) = landcover_main env groups := by
  constructor
  · simp [export_resolution]
  · simp [landcover_main, run_resolutions, export_resolution]

/-! ## Claim C4: failure isolation between resolution groups -/

/-- C4, counterexample.  The claim says a failure raised while exporting
one resolution group does not prevent the remaining groups from being
processed and written.  In a run of two groups where the first group's
`.jsonl` write raises, the run writes nothing at all and exits 1 — in
particular the resolution-5 `.jsonl` that the same run with sound writes
does produce is missing. -/
theorem c4_counterexample :
    (landcover_main envJsonlFailRes3 [(3, [lcTableA]), (5, [lcTableB])]).1 = [] ∧
    (landcover_main envJsonlFailRes3 [(3, [lcTableA]), (5, [lcTableB])]).2 = 1 ∧
    ((landcover_main envAllOk [(3, [lcTableA]), (5, [lcTableB])]).1.any
      (isJsonlFor 5)) = true := by decide

/-- C4, amended: only the zero-tables condition is isolated at group
granularity (see the C1 theorem); a failure raised while exporting one
resolution group halts the run — the runner stops at the failing group,
the files of that group written before the failure are all that remains of
it, no later group runs, and the process exits 1. -/
theorem c4_group_failure_halts_run (env : WEnv) (g : Nat × List LCTable)
    (rest : List (Nat × List LCTable))
    (hfail : (export_resolution env g.1 g.2).2 = false) :
    run_resolutions env (g :: rest) = ((export_resolution env g.1 g.2).1, false) ∧
    (landcover_main env (g :: rest)).2 = 1 := by
  have h1 : run_resolutions env (g :: rest) =
      ((export_resolution env g.1 g.2).1, false) := by
    simp [run_resolutions, hfail]
  refine ⟨h1, ?_⟩
  simp [landcover_main, h1]

/-- C4, witness for the amended theorem at a concrete failing input. -/
theorem c4_group_failure_halts_run_witness :
    run_resolutions envJsonlFailRes3 [(3, [lcTableA])] =
      ((export_resolution envJsonlFailRes3 3 [lcTableA]).1, false) ∧
    (landcover_main envJsonlFailRes3 [(3, [lcTableA])]).2 = 1 :=
  c4_group_failure_halts_run envJsonlFailRes3 (3, [lcTableA]) [] (by decide)

/-! ## Claim C2: code and biome of land-cover records -/

/-- C2, counterexample.  The claim says that whenever the source majority
value is unrecognized, the record gets code 0.  For the unrecognized
majority 999 (the spec's own example value), the class-table lookup does
default to "unknown", but the `code` field is computed separately as
`int(majority) if majority else 0`, so the record keeps code 999. -/
theorem c2_counterexample :
    export_table_arcpy
        ⟨"ZStatsAsTable_Out_h3_res7_chunk_1", [(some "871c", some 999)]⟩ =
      [{ h3 := "871c", code := 999, biome := "unknown" }] ∧
    (999 : Int) ≠ 0 := by decide

/-- C2, amended: every land-cover record's `biome` is one of the fixed
class-table biome strings; when the majority is absent (None) or zero the
record gets code 0 and biome "unknown"; when the majority is an
unrecognized non-zero value the biome is "unknown" but `code` keeps the
source value (so it equals 0 only if the source was 0); and `code` is
non-negative whenever the source majority is non-negative or absent. -/
theorem c2_code_biome_defaults (t : LCTable) (r : LCRecord) (s : String)
    (m : Option Int) :
    (r ∈ export_table_arcpy t → r.biome ∈ classBiomes) ∧
    ((m = none ∨ m = some 0) →
      (lc_map_row s m).code = 0 ∧ (lc_map_row s m).biome = "unknown") ∧
    (∀ v : Int, m = some v → classFor v = none →
      (lc_map_row s m).biome = "unknown") ∧
    (∀ v : Int, m = some v → v ≠ 0 → (lc_map_row s m).code = v) ∧
    (∀ v : Int, m = some v → 0 ≤ v → 0 ≤ (lc_map_row s m).code) := by
  refine ⟨?_, ?_, ?_, ?_, ?_⟩
  · intro hr
    rw [export_table_arcpy, List.mem_filterMap] at hr
    obtain ⟨row, _, hrow⟩ := hr
    by_cases ht : pyTruthyStr row.1
    · rw [if_pos ht] at hrow
      injection hrow with h
      subst h
      show (get_biome_info row.2).biome ∈ classBiomes
      rw [get_biome_info]
      cases hc : classFor (majority_to_code row.2) with
      | none => decide
      | some k =>
        rw [Option.getD_some]
        exact List.mem_map_of_mem LCClass.biome (List.mem_of_find?_eq_some hc)
    · rw [if_neg ht] at hrow
      exact absurd hrow (by simp)
  · rintro (rfl | rfl)
    · exact ⟨rfl, rfl⟩
    · exact ⟨rfl, rfl⟩
  · intro v hm hc
    subst hm
    by_cases hv : v = 0
    · subst hv
      exact absurd hc (by decide)
    · show ((classFor (majority_to_code (some v))).getD unknownClass).biome = "unknown"
      have hmc : majority_to_code (some v) = v := by
        simp [majority_to_code, pyTruthyInt, hv]
      rw [hmc, hc]
      rfl
  · intro v hm hv
    subst hm
    show majority_to_code (some v) = v
    simp [majority_to_code, pyTruthyInt, hv]
  · intro v hm hv
    subst hm
    show 0 ≤ majority_to_code (some v)
    rw [majority_to_code]
    split
    · exact hv
    · exact le_refl 0

/-- C2, witness for the amended theorem: a zero majority yields code 0 and
biome "unknown". -/
theorem c2_code_biome_defaults_witness :
    (lc_map_row "871c" (some 0)).code = 0 ∧
    (lc_map_row "871c" (some 0)).biome = "unknown" :=
  (c2_code_biome_defaults ⟨"t", []⟩ (lc_map_row "871c" (some 0)) "871c"
    (some 0)).2.1 (Or.inr rfl)

/-! ## Claim C3: non-empty H3 index in output records -/

/-- C3, counterexample.  The claim says every output record of either
pipeline has a non-empty `h3_index`/`h3`.  In the statistics pipeline a
table whose schema lacks the `h3_index` column still has all its rows
exported, each with `h3_index = None`. -/
theorem c3_counterexample :
    ((stats_export_table statTableNoH3).map StatRecord.h3_index) = [Value.null] ∧
    (((stats_export_table statTableNoH3).map StatRecord.h3_index).all
      valueNonEmptyStr) = false := by decide

/-- C3, amended: in the land-cover pipeline every output record has a
non-empty `h3` (rows with falsy `h3_index` are skipped); in the statistics
pipeline the `h3_index` field carries whatever the source row holds and is
null whenever the column is absent from the table's schema. -/
theorem c3_h3_nonempty_landcover_only (t : LCTable) (r : LCRecord)
    (fields : List String) (part : Nat) (row : List Value) :
    (r ∈ export_table_arcpy t → r.h3 ≠ "") ∧
    ("h3_index" ∉ fields → (stats_map_row fields part row).h3_index = Value.null) := by
  constructor
  · intro hr
    rw [export_table_arcpy, List.mem_filterMap] at hr
    obtain ⟨row0, _, hrow⟩ := hr
    by_cases ht : pyTruthyStr row0.1
    · rw [if_pos ht] at hrow
      injection hrow with h
      subst h
      show (row0.1.getD "") ≠ ""
      cases h1 : row0.1 with
      | none => rw [h1] at ht; exact absurd ht (by simp [pyTruthyStr])
      | some s =>
        rw [h1] at ht
        simp [pyTruthyStr] at ht
        simpa using ht
    · rw [if_neg ht] at hrow
      exact absurd hrow (by simp)
  · intro hnf
    show getField fields row "h3_index" = Value.null
    rw [getField, if_neg hnf]

/-- C3, witness for the amended theorem: a row of a schema without
`h3_index` gets a null `h3_index`. -/
theorem c3_h3_nonempty_landcover_only_witness :
    (stats_map_row ["ZONE_CODE"] 1 [Value.int 5]).h3_index = Value.null :=
  (c3_h3_nonempty_landcover_only ⟨"t", []⟩ ⟨"", 0, ""⟩ ["ZONE_CODE"] 1
    [Value.int 5]).2 (by decide)

/-! ## Claim C5: CSV header columns -/

/-- C5, counterexample.  The claim says the written CSV has exactly the
declared header columns regardless of backend and of which optional
columns the source had.  Under the fiona backend, a source without the
`MAJORITY` column yields a CSV whose header lacks `majority`. -/
theorem c5_counterexample :
    fiona_csv_header ["h3_index", "ZONE_CODE", "COUNT", "AREA"] =
      ["h3_index", "zone_code", "count", "area", "source_part"] ∧
    fiona_csv_header ["h3_index", "ZONE_CODE", "COUNT", "AREA"] ≠
      declared_columns := by decide

/-- C5, amended: the arcpy backend always writes exactly the declared
header columns in the declared order; the fiona backend writes the
declared columns restricted to those present in the source (after rename,
plus the added `source_part`), in declared order — which equals the full
declared header exactly when every declared column is present. -/
theorem c5_header_per_backend (cols : List String) :
    arcpy_csv_header = declared_columns ∧
    (fiona_csv_header cols).Sublist declared_columns ∧
    ((∀ c ∈ declared_columns, c ∈ cols.map fiona_rename ++ ["source_part"]) →
      fiona_csv_header cols = declared_columns) := by
  refine ⟨rfl, List.filter_sublist _, fun h => ?_⟩
  simp only [fiona_csv_header]
  rw [List.filter_eq_self]
  intro a ha
  simpa using h a ha

/-- C5, witness for the amended theorem: with all declared columns present
in the source, the fiona header equals the declared header. -/
theorem c5_header_per_backend_witness :
    fiona_csv_header ["h3_index", "ZONE_CODE", "COUNT", "AREA", "MAJORITY"] =
      declared_columns :=
  (c5_header_per_backend
    ["h3_index", "ZONE_CODE", "COUNT", "AREA", "MAJORITY"]).2.2 (by decide)

/-! ## Claim C6: table processing order within a resolution group -/

/-- C6, counterexample.  The claim says both pipelines process the tables
of a group in ascending order of parsed part index.  The land-cover
pipeline iterates the tables exactly as the backend listed them: with the
`part02` table listed before `part01`, the aggregate holds the `part02`
records first, not the part-ascending order. -/
theorem c6_counterexample :
    (landcover_aggregate [lcPart02, lcPart01]).map LCRecord.h3 = ["h3b", "h3a"] ∧
    (["h3b", "h3a"] : List String) ≠ ["h3a", "h3b"] := by decide

/-- C6, amended: the statistics pipeline sorts each group's tables by
ascending parsed part index before processing (the sorted list is a
permutation of the group, pairwise ordered by part) and appends each
table's records in that order; the land-cover pipeline appends each
table's records in the backend's listing order, with no sorting. -/
theorem c6_table_order_per_pipeline (ts : List StatTable) (lts : List LCTable) :
    List.Pairwise (fun a b => a.part ≤ b.part) (stats_sort_tables ts) ∧
    (stats_sort_tables ts).Perm ts ∧
    stats_aggregate ts = ((stats_sort_tables ts).map stats_export_table).flatten ∧
    landcover_aggregate lts = (lts.map export_table_arcpy).flatten := by
  refine ⟨?_, ?_, rfl, rfl⟩
  · refine List.Pairwise.imp (fun h => of_decide_eq_true h) ?_
    exact List.sorted_mergeSort
      (fun a b c hab hbc => by
        simp only [decide_eq_true_eq] at hab hbc ⊢; omega)
      (fun a b => by
        simp only [Bool.or_eq_true, decide_eq_true_eq]; omega)
      ts
  · exact List.mergeSort_perm ts _

/-! ## Claim C7: behaviour when no geodatabase library is importable -/

/-- C7, counterexample.  The claim says both exporters terminate with a
non-zero exit status when neither access library is importable.  The
statistics exporter's `main` never calls `sys.exit`: with both backends
unavailable it prints the guidance message and the process exits 0. -/
theorem c7_counterexample :
    (stats_main false false).exitCode = 0 ∧
    (stats_main false false).exportSucceeded = false := by decide

/-- C7, amended: with neither library importable, the land-cover exporter
fails fast at import time with exit status 1 (before producing any
output), while the statistics exporter prints its actionable guidance
message but exits 0. -/
theorem c7_no_backend_exit_behaviour :
    landcover_backend_select false false = Except.error 1 ∧
    (stats_main false false).exitCode = 0 ∧
    (stats_main false false).printedGuidance = true := ⟨rfl, rfl, rfl⟩

/-! ## Claim C9: last-entry-wins biome → color mapping -/

/-- C9.  In the biome → color mapping written to `biome_colors.json` and
to every per-resolution summary, each biome is assigned the color of the
last class-table entry (in declaration order) carrying that biome; in
particular "forest", shared by six classes, maps to `#32c832`, the
`forest_unknown` color. -/
theorem c9_biome_color_last_entry_wins :
    (∀ k ∈ LANDCOVER_CLASSES,
      biome_to_color.lookup k.biome =
        ((LANDCOVER_CLASSES.filter (fun e => e.biome == k.biome)).getLast?).map
          LCClass.color) ∧
    biome_to_color.lookup "forest" = some "#32c832" := by decide

/-- C9, witness at the `forest_unknown` entry. -/
theorem c9_biome_color_last_entry_wins_witness :
    biome_to_color.lookup "forest" =
      ((LANDCOVER_CLASSES.filter (fun e => e.biome == "forest")).getLast?).map
        LCClass.color :=
  c9_biome_color_last_entry_wins.1 ⟨116, "forest_unknown", "#32c832", "forest"⟩
    (by decide)

/-! ## Claim C10: manifest built from the directory contents -/

/-- C10.  The statistics exporter's manifest is computed from the output
directory alone (`generate_manifest` takes only the directory state, not
the records exported by the current run): every `res<N>` subdirectory
whose CSV file currently exists contributes an entry whose `record_count`
is that file's current line count minus one — including CSVs left by a
previous run, so the manifest can list resolutions the current run never
exported. -/
theorem c10_manifest_scans_directories (dirs : List ResDir) (d : ResDir)
    (ls : List String) (hd : d ∈ dirs) (hcsv : d.csvLines = some ls) :
    (d.res, ls.length - 1) ∈ generate_manifest dirs := by
  rw [generate_manifest, List.mem_filterMap]
  exact ⟨d, hd, by rw [hcsv]; rfl⟩

/-- C10, witness: a directory state holding a stale resolution-5 CSV of
three lines (header plus two records) yields a manifest entry `(5, 2)`. -/
theorem c10_manifest_scans_directories_witness :
    (5, 2) ∈ generate_manifest [⟨5, some ["h", "r1", "r2"]⟩, ⟨7, none⟩] :=
  c10_manifest_scans_directories _ ⟨5, some ["h", "r1", "r2"]⟩
    ["h", "r1", "r2"] (by decide) rfl

/-! ## Claim C8: JSON-lines round trip — parser/printer lemmas -/

/-- Rebuilding a string from its character data is the identity. -/
theorem string_mk_data (s : String) : String.mk s.data = s := by
  cases s; rfl

/-- Hex digit characters decode to their value. -/
theorem hexVal_hexDigitChar : ∀ d : Nat, d < 16 → hexVal (hexDigitChar d) = some d := by
  decide

/-- Hex digit characters are not the newline. -/
theorem hexDigitChar_ne_newline : ∀ d : Nat, d < 16 → hexDigitChar d ≠ '\n' := by
  decide

/-- Decimal digit characters: digit test, code value, and apartness from
newline and the minus sign. -/
theorem decDigitChar_spec : ∀ d : Nat, d < 10 →
    (Char.ofNat (48 + d)).isDigit = true ∧ (Char.ofNat (48 + d)).toNat = 48 + d ∧
    Char.ofNat (48 + d) ≠ '\n' ∧ Char.ofNat (48 + d) ≠ '-' := by
  decide

/-- Consuming a literal that the input starts with succeeds and leaves the
rest. -/
theorem chewLit_append (lit rest : List Char) :
    chewLit lit (lit ++ rest) = some rest := by
  induction lit with
  | nil => rfl
  | cons l ls ih => simp [chewLit, ih]

/-- A closing quote ends the string body. -/
theorem parseJStr_quote (cs acc : List Char) :
    parseJStr ('"' :: cs) acc = some (acc.reverse, cs) := by
  rw [parseJStr.eq_def]
  simp

/-- An unescaped plain character is accumulated. -/
theorem parseJStr_plain (c : Char) (h1 : c ≠ '"') (h2 : c ≠ '\\')
    (cs acc : List Char) :
    parseJStr (c :: cs) acc = parseJStr cs (c :: acc) := by
  rw [parseJStr.eq_def]
  simp [h1, h2]

/-- A single-character escape is accumulated as its meaning. -/
theorem parseJStr_esc (e u : Char) (he : e ≠ 'u') (hu : unescape_char e = some u)
    (cs acc : List Char) :
    parseJStr ('\\' :: e :: cs) acc = parseJStr cs (u :: acc) := by
  rw [parseJStr.eq_def]
  simp [he, hu]

/-- A `\uXXXX` escape is accumulated as the encoded character. -/
theorem parseJStr_unicode (h1 h2 h3 h4 : Char) (a b c2 d : Nat)
    (hv1 : hexVal h1 = some a) (hv2 : hexVal h2 = some b)
    (hv3 : hexVal h3 = some c2) (hv4 : hexVal h4 = some d)
    (cs acc : List Char) :
    parseJStr ('\\' :: 'u' :: h1 :: h2 :: h3 :: h4 :: cs) acc =
      parseJStr cs (Char.ofNat (((a * 16 + b) * 16 + c2) * 16 + d) :: acc) := by
  rw [parseJStr.eq_def]
  simp [hv1, hv2, hv3, hv4]

/-- Parsing undoes the escaping of any single character. -/
theorem parseJStr_escape_char (c : Char) (cs acc : List Char) :
    parseJStr (escape_char c ++ cs) acc = parseJStr cs (c :: acc) := by
  rw [escape_char]
  split_ifs with h1 h2 h3 h4 h5 h6 h7 h8
  · subst h1; exact parseJStr_esc '"' '"' (by decide) (by decide) cs acc
  · subst h2; exact parseJStr_esc '\\' '\\' (by decide) (by decide) cs acc
  · subst h3; exact parseJStr_esc 'n' '\n' (by decide) (by decide) cs acc
  · subst h4; exact parseJStr_esc 'r' '\r' (by decide) (by decide) cs acc
  · subst h5; exact parseJStr_esc 't' '\t' (by decide) (by decide) cs acc
  · subst h6; exact parseJStr_esc 'b' '\x08' (by decide) (by decide) cs acc
  · subst h7; exact parseJStr_esc 'f' '\x0c' (by decide) (by decide) cs acc
  · have ha : hexVal '0' = some 0 := by decide
    have hb : hexVal (hexDigitChar (c.toNat / 16)) = some (c.toNat / 16) :=
      hexVal_hexDigitChar _ (by omega)
    have hc : hexVal (hexDigitChar (c.toNat % 16)) = some (c.toNat % 16) :=
      hexVal_hexDigitChar _ (by omega)
    rw [show (['\\', 'u', '0', '0', hexDigitChar (c.toNat / 16),
        hexDigitChar (c.toNat % 16)] ++ cs) =
      '\\' :: 'u' :: '0' :: '0' :: hexDigitChar (c.toNat / 16) ::
        hexDigitChar (c.toNat % 16) :: cs from rfl]
    rw [parseJStr_unicode '0' '0' _ _ 0 0 _ _ ha ha hb hc]
    have harith : ((0 * 16 + 0) * 16 + c.toNat / 16) * 16 + c.toNat % 16 =
        c.toNat := by omega
    rw [harith, Char.ofNat_toNat]
  · exact parseJStr_plain c h1 h2 cs acc

/-- Parsing undoes the escaping of a whole string value, up to the closing
quote. -/
theorem parseJStr_escape_chars (s : List Char) : ∀ cs acc : List Char,
    parseJStr (escape_chars s ++ '"' :: cs) acc = some (acc.reverse ++ s, cs) := by
  induction s with
  | nil => intro cs acc; simp [escape_chars, parseJStr_quote]
  | cons c s ih =>
    intro cs acc
    have hc : escape_chars (c :: s) = escape_char c ++ escape_chars s := by
      simp [escape_chars]
    rw [hc, List.append_assoc, parseJStr_escape_char, ih]
    simp

/-- Unfolding equation of `natToDecimalAux`. -/
theorem natToDecimalAux_eq (n : Nat) (acc : List Char) :
    natToDecimalAux n acc =
      if n = 0 then acc
      else natToDecimalAux (n / 10) (Char.ofNat (48 + n % 10) :: acc) := by
  conv_lhs => rw [natToDecimalAux]
  by_cases h : n = 0 <;> simp [h]

/-- The accumulator of `natToDecimalAux` is a suffix. -/
theorem natToDecimalAux_acc (n : Nat) : ∀ acc : List Char,
    natToDecimalAux n acc = natToDecimalAux n [] ++ acc := by
  induction n using Nat.strong_induction_on with
  | _ n ih =>
    intro acc
    by_cases h : n = 0
    · subst h
      rw [natToDecimalAux_eq 0 acc, natToDecimalAux_eq 0 []]
      simp
    · have hlt : n / 10 < n := Nat.div_lt_self (Nat.pos_of_ne_zero h) (by omega)
      rw [natToDecimalAux_eq n acc, natToDecimalAux_eq n [], if_neg h, if_neg h]
      rw [ih _ hlt (Char.ofNat (48 + n % 10) :: acc),
        ih _ hlt [Char.ofNat (48 + n % 10)]]
      simp

/-- Characters produced by `natToDecimalAux` over a digit accumulator are
digits. -/
theorem natToDecimalAux_digits (n : Nat) : ∀ acc : List Char,
    (∀ c ∈ acc, c.isDigit = true) →
    ∀ c ∈ natToDecimalAux n acc, c.isDigit = true := by
  induction n using Nat.strong_induction_on with
  | _ n ih =>
    intro acc hacc c hc
    rw [natToDecimalAux_eq] at hc
    by_cases h : n = 0
    · rw [if_pos h] at hc
      exact hacc c hc
    · rw [if_neg h] at hc
      have hlt : n / 10 < n := Nat.div_lt_self (Nat.pos_of_ne_zero h) (by omega)
      refine ih _ hlt _ ?_ c hc
      intro c' hc'
      rcases List.mem_cons.mp hc' with h' | h'
      · subst h'
        exact (decDigitChar_spec (n % 10) (by omega)).1
      · exact hacc c' h'

/-- Folding the decimal digits of a non-zero number recovers it. -/
theorem natToDecimalAux_foldl : ∀ n : Nat, n ≠ 0 → ∀ a : Nat,
    (natToDecimalAux n []).foldl (fun a c => a * 10 + (c.toNat - 48)) a =
      a * 10 ^ (natToDecimalAux n []).length + n := by
  intro n
  induction n using Nat.strong_induction_on with
  | _ n ih =>
    intro hn a
    have hdig : (Char.ofNat (48 + n % 10)).toNat = 48 + n % 10 :=
      (decDigitChar_spec (n % 10) (by omega)).2.1
    rw [natToDecimalAux_eq, if_neg hn, natToDecimalAux_acc]
    by_cases h10 : n / 10 = 0
    · rw [h10]
      rw [show natToDecimalAux 0 [] = [] by rw [natToDecimalAux_eq]; simp]
      simp only [List.nil_append, List.foldl_cons, List.foldl_nil,
        List.length_cons, List.length_nil, Nat.zero_add]
      rw [hdig, pow_one]
      have hn10 : n < 10 := by omega
      omega
    · have hlt : n / 10 < n := Nat.div_lt_self (Nat.pos_of_ne_zero hn) (by omega)
      rw [List.foldl_append]
      rw [ih _ hlt h10 a]
      simp only [List.foldl_cons, List.foldl_nil, List.length_append,
        List.length_cons, List.length_nil]
      rw [hdig]
      have hmod : 10 * (n / 10) + n % 10 = n := Nat.div_add_mod n 10
      calc (a * 10 ^ (natToDecimalAux (n / 10) []).length + n / 10) * 10 +
            (48 + n % 10 - 48)
          = a * (10 ^ (natToDecimalAux (n / 10) []).length * 10) +
            (10 * (n / 10) + n % 10) := by ring_nf; omega
        _ = a * 10 ^ ((natToDecimalAux (n / 10) []).length + 1) + n := by
            rw [pow_succ, hmod]

/-- The decimal notation of a natural number has only digit characters. -/
theorem natToDecimal_digits (n : Nat) : ∀ c ∈ natToDecimal n, c.isDigit = true := by
  rw [natToDecimal]
  split_ifs
  · decide
  · exact natToDecimalAux_digits n [] (by simp)

/-- The decimal notation of a natural number is non-empty. -/
theorem natToDecimal_ne_nil (n : Nat) : natToDecimal n ≠ [] := by
  rw [natToDecimal]
  split_ifs with h
  · simp
  · rw [natToDecimalAux_eq, if_neg h, natToDecimalAux_acc]
    simp

/-- Folding the decimal notation of any natural number recovers it. -/
theorem natToDecimal_foldl (n : Nat) :
    (natToDecimal n).foldl (fun a c => a * 10 + (c.toNat - 48)) 0 = n := by
  rw [natToDecimal]
  split_ifs with h
  · subst h; decide
  · rw [natToDecimalAux_foldl n h 0]
    simp

/-- Parsing a run of digits followed by a non-digit consumes exactly the
digits and folds their value. -/
theorem parseDigits_append : ∀ ds : List Char, (∀ c ∈ ds, c.isDigit = true) →
    ∀ rest : List Char, (∀ c, rest.head? = some c → c.isDigit = false) →
    ∀ acc : Nat, parseDigits (ds ++ rest) acc =
      (ds.foldl (fun a c => a * 10 + (c.toNat - 48)) acc, rest)
  | [], _, rest, hrest, acc => by
    cases rest with
    | nil => rfl
    | cons c cs => simp [parseDigits, hrest c rfl]
  | d :: ds, hds, rest, hrest, acc => by
    have hd : d.isDigit = true := hds d (List.mem_cons_self d ds)
    simp only [List.cons_append, parseDigits, hd, if_true, List.foldl_cons]
    exact parseDigits_append ds (fun c hc => hds c (List.mem_cons_of_mem d hc))
      rest hrest _

/-- Digit characters are not the minus sign. -/
theorem isDigit_ne_minus (c : Char) (h : c.isDigit = true) : c ≠ '-' := by
  intro hc
  subst hc
  exact absurd h (by decide)

/-- Parsing undoes the decimal printing of any integer when the following
character is not a digit. -/
theorem parseIntDec_intToDecimal (i : Int) (rest : List Char)
    (hrest : ∀ c, rest.head? = some c → c.isDigit = false) :
    parseIntDec (intToDecimal i ++ rest) = some (i, rest) := by
  by_cases hneg : i < 0
  · rw [intToDecimal, if_pos hneg]
    obtain ⟨d, ds, hds⟩ : ∃ d ds, natToDecimal i.natAbs = d :: ds := by
      cases h : natToDecimal i.natAbs with
      | nil => exact absurd h (natToDecimal_ne_nil _)
      | cons d ds => exact ⟨d, ds, rfl⟩
    have hd : d.isDigit = true :=
      natToDecimal_digits _ d (hds ▸ List.mem_cons_self d ds)
    have hp : parseDigits ((d :: ds) ++ rest) 0 = (i.natAbs, rest) := by
      rw [parseDigits_append (d :: ds)
        (fun c hc => natToDecimal_digits _ c (hds ▸ hc)) rest hrest 0]
      rw [← hds, natToDecimal_foldl]
    rw [hds]
    rw [show ('-' :: d :: ds) ++ rest = '-' :: ((d :: ds) ++ rest) from rfl]
    rw [parseIntDec.eq_def]
    simp only [if_pos rfl, List.cons_append, hd, if_true]
    rw [show (d :: (ds ++ rest)) = (d :: ds) ++ rest from rfl, hp]
    have hi : -(i.natAbs : Int) = i := by omega
    show some (-(i.natAbs : Int), rest) = some (i, rest)
    rw [hi]
  · rw [intToDecimal, if_neg hneg]
    obtain ⟨d, ds, hds⟩ : ∃ d ds, natToDecimal i.toNat = d :: ds := by
      cases h : natToDecimal i.toNat with
      | nil => exact absurd h (natToDecimal_ne_nil _)
      | cons d ds => exact ⟨d, ds, rfl⟩
    have hd : d.isDigit = true :=
      natToDecimal_digits _ d (hds ▸ List.mem_cons_self d ds)
    have hp : parseDigits ((d :: ds) ++ rest) 0 = (i.toNat, rest) := by
      rw [parseDigits_append (d :: ds)
        (fun c hc => natToDecimal_digits _ c (hds ▸ hc)) rest hrest 0]
      rw [← hds, natToDecimal_foldl]
    rw [hds]
    rw [parseIntDec.eq_def]
    simp only [List.cons_append, if_neg (isDigit_ne_minus d hd), hd, if_true]
    rw [show (d :: (ds ++ rest)) = (d :: ds) ++ rest from rfl, hp]
    have hi : (i.toNat : Int) = i := by omega
    show some ((i.toNat : Int), rest) = some (i, rest)
    rw [hi]

/-- Escaping never emits a raw newline. -/
theorem newline_not_mem_escape_char (c : Char) : '\n' ∉ escape_char c := by
  rw [escape_char]
  split_ifs with h1 h2 h3 h4 h5 h6 h7 h8
  · decide
  · decide
  · decide
  · decide
  · decide
  · decide
  · decide
  · intro hmem
    have hb : hexDigitChar (c.toNat / 16) ≠ '\n' :=
      hexDigitChar_ne_newline _ (by omega)
    have hc : hexDigitChar (c.toNat % 16) ≠ '\n' :=
      hexDigitChar_ne_newline _ (by omega)
    simp only [List.mem_cons, List.not_mem_nil, or_false] at hmem
    rcases hmem with h | h | h | h | h | h
    · exact absurd h (by decide)
    · exact absurd h (by decide)
    · exact absurd h (by decide)
    · exact absurd h (by decide)
    · exact hb h.symm
    · exact hc h.symm
  · intro hmem
    simp only [List.mem_singleton] at hmem
    exact h3 hmem.symm

/-- Escaped string values contain no raw newline. -/
theorem newline_not_mem_escape_chars (s : List Char) : '\n' ∉ escape_chars s := by
  intro h
  rw [escape_chars] at h
  simp only [List.mem_flatten, List.mem_map] at h
  obtain ⟨l, ⟨c, _, rfl⟩, hl⟩ := h
  exact newline_not_mem_escape_char c hl

/-- Decimal notations contain no newline. -/
theorem newline_not_mem_natToDecimal (n : Nat) : '\n' ∉ natToDecimal n := by
  intro h
  exact absurd (natToDecimal_digits n '\n' h) (by decide)

/-- Integer notations contain no newline. -/
theorem newline_not_mem_intToDecimal (i : Int) : '\n' ∉ intToDecimal i := by
  rw [intToDecimal]
  split_ifs
  · intro h
    rcases List.mem_cons.mp h with h | h
    · exact absurd h (by decide)
    · exact newline_not_mem_natToDecimal _ h
  · exact newline_not_mem_natToDecimal _

/-- An encoded record contains no raw newline, so it occupies one line of
the file. -/
theorem newline_not_mem_json_dumps (r : LCRecord) :
    '\n' ∉ json_dumps_record r := by
  rw [json_dumps_record]
  intro h
  simp only [List.mem_append] at h
  rcases h with (((((h | h) | h) | h) | h) | h) | h
  · exact absurd h (by decide)
  · exact newline_not_mem_escape_chars _ h
  · exact absurd h (by decide)
  · exact newline_not_mem_intToDecimal _ h
  · exact absurd h (by decide)
  · exact newline_not_mem_escape_chars _ h
  · exact absurd h (by decide)

/-- Splitting at the first newline after a newline-free chunk yields that
chunk as a line. -/
theorem splitLinesAux_line : ∀ xs : List Char, '\n' ∉ xs →
    ∀ rest acc : List Char,
    splitLinesAux (xs ++ '\n' :: rest) acc =
      (acc.reverse ++ xs) :: splitLinesAux rest []
  | [], _, rest, acc => by simp [splitLinesAux]
  | x :: xs, hx, rest, acc => by
    have hxn : ¬(x = '\n') := fun h => hx (h ▸ List.mem_cons_self x xs)
    simp only [List.cons_append, splitLinesAux, if_neg hxn, List.append_eq]
    rw [splitLinesAux_line xs (fun h => hx (List.mem_cons_of_mem x h)) rest
      (x :: acc)]
    simp

/-- Splitting the written file yields exactly the encoded records, plus the
empty chunk after the trailing newline. -/
theorem splitLines_write_jsonl (records : List LCRecord) :
    splitLines (write_jsonl records) = records.map json_dumps_record ++ [[]] := by
  induction records with
  | nil => rfl
  | cons r rs ih =>
    show splitLinesAux
      (((r :: rs).map (fun r => json_dumps_record r ++ ['\n'])).flatten) [] = _
    rw [List.map_cons, List.flatten_cons, List.append_assoc,
      List.singleton_append]
    rw [splitLinesAux_line _ (newline_not_mem_json_dumps r) _ []]
    have ih2 : splitLinesAux
        ((rs.map (fun r => json_dumps_record r ++ ['\n'])).flatten) [] =
        rs.map json_dumps_record ++ [[]] := ih
    rw [ih2]
    simp

/-- Decoding undoes the encoding of any single record. -/
theorem json_loads_dumps (r : LCRecord) :
    json_loads_record (json_dumps_record r) = some r := by
  have h1 : json_dumps_record r =
      "\x7b\"h3\": \"".data ++ (escape_chars r.h3.data ++ '"' ::
        (", \"code\": ".data ++ (intToDecimal r.code ++ (", \"biome\": \"".data ++
          (escape_chars r.biome.data ++ '"' :: "\x7d".data))))) := by
    rw [json_dumps_record]
    rw [show "\", \"code\": ".data = '"' :: ", \"code\": ".data from rfl]
    rw [show "\"\x7d".data = '"' :: "\x7d".data from rfl]
    simp [List.append_assoc]
  have hhead : ∀ c : Char,
      ((", \"biome\": \"".data ++ (escape_chars r.biome.data ++ '"' ::
        "\x7d".data)).head? = some c) → c.isDigit = false := by
    intro c hc
    have h2 : ((", \"biome\": \"".data ++ (escape_chars r.biome.data ++ '"' ::
        "\x7d".data)).head?) = some ',' := rfl
    rw [hc] at h2
    injection h2 with h3
    subst h3
    decide
  unfold json_loads_record
  rw [h1, chewLit_append]
  simp only [Option.bind_eq_bind, Option.some_bind]
  rw [parseJStr_escape_chars]
  simp only [Option.bind_eq_bind, Option.some_bind, List.reverse_nil,
    List.nil_append]
  rw [chewLit_append]
  simp only [Option.bind_eq_bind, Option.some_bind]
  rw [parseIntDec_intToDecimal r.code _ hhead]
  simp only [Option.bind_eq_bind, Option.some_bind]
  rw [chewLit_append]
  simp only [Option.bind_eq_bind, Option.some_bind]
  rw [parseJStr_escape_chars]
  simp only [Option.bind_eq_bind, Option.some_bind, List.reverse_nil,
    List.nil_append]
  rw [show chewLit "\x7d".data "\x7d".data = some ([] : List Char) by decide]
  simp only [Option.bind_eq_bind, Option.some_bind]

/-- Decoding undoes the encoding of every record list. -/
theorem mapM_loads_dumps : ∀ rs : List LCRecord,
    (rs.map json_dumps_record).mapM json_loads_record = some rs
  | [] => rfl
  | r :: rs => by
    rw [List.map_cons, List.mapM_cons, json_loads_dumps r, mapM_loads_dumps rs]
    rfl

/-- C8.  Writing any in-memory record collection of the land-cover
pipeline to the JSON-lines file and re-reading that file line by line
yields exactly the same record collection — in particular the same number
of records with the same field values. -/
theorem c8_jsonl_round_trip (records : List LCRecord) :
    read_jsonl (write_jsonl records) = some records := by
  unfold read_jsonl
  rw [splitLines_write_jsonl, List.dropLast_concat, mapM_loads_dumps]

end Biome
